import Mathlib

/-!
Verification development for the Sureodds prediction-fetch workflow
(src/index.tsx).  The service function `fetchPredictions`, its helpers
(prompt construction, JSON-array extraction, grounding-source collection
and de-duplication, error translation) and the UI call sites of
`loadData` are embedded as executable Lean definitions; machine-checked
theorems about the spec's claims follow the definitions.
-/

namespace Sureodds

/-! ## Data model (the exported TypeScript interfaces) -/

structure Analysis where
  form : String
  keyPlayers : String
  last5Games : String
  conditions : String

structure Prediction where
  «match» : String
  league : String
  kickoffTime : String
  analysis : Analysis
  betRecommendation : String
  confidence : Int
  marketOption : String

structure GroundingSource where
  title : String
  uri : String

/-! ## JSON values and a JSON.parse model

`JSON.parse` is a host-runtime primitive; it is embedded as a total
recursive-descent parser over `List Char` with a fuel bound.  Number
values are kept as their source lexeme, which is faithful for every
question asked here (success/failure and structural equality). -/

inductive Json where
  | null
  | bool (b : Bool)
  | num (lexeme : String)
  | str (value : String)
  | arr (items : List Json)
  | obj (fields : List (String × Json))

def isWsChar (c : Char) : Bool :=
  c == '\x20' || c == '\x09' || c == '\x0a' || c == '\x0d'

def skipWs (cs : List Char) : List Char :=
  cs.dropWhile isWsChar

def takeDigits (cs : List Char) : List Char × List Char :=
  (cs.takeWhile Char.isDigit, cs.dropWhile Char.isDigit)

def hexVal (c : Char) : Option Nat :=
  if c.isDigit then
    some (c.toNat - 48)
  else if 97 ≤ c.toNat && c.toNat ≤ 102 then
    some (c.toNat - 87)
  else if 65 ≤ c.toNat && c.toNat ≤ 70 then
    some (c.toNat - 55)
  else none

def unescapeChar (e : Char) : Option Char :=
  if e == '"' then some '"'
  else if e == '\\' then some '\\'
  else if e == '/' then some '/'
  else if e == 'b' then some '\x08'
  else if e == 'f' then some '\x0c'
  else if e == 'n' then some '\n'
  else if e == 'r' then some '\r'
  else if e == 't' then some '\t'
  else none

/-- Body of a JSON string after the opening quote: returns the decoded
characters and the input remaining after the closing quote. -/
def lexStringContent : List Char → Option (List Char × List Char)
  | [] => none
  | '"' :: rest => some ([], rest)
  | '\\' :: 'u' :: h1 :: h2 :: h3 :: h4 :: rest =>
    match hexVal h1, hexVal h2, hexVal h3, hexVal h4 with
    | some a, some b, some c, some d =>
      (lexStringContent rest).map
        (fun p => (Char.ofNat (((a * 16 + b) * 16 + c) * 16 + d) :: p.1, p.2))
    | _, _, _, _ => none
  | '\\' :: e :: rest =>
    match unescapeChar e with
    | some d => (lexStringContent rest).map (fun p => (d :: p.1, p.2))
    | none => none
  | c :: rest =>
    if c.toNat < 32 then none
    else (lexStringContent rest).map (fun p => (c :: p.1, p.2))

def lexNumberBody : List Char → Option (List Char × List Char)
  | [] => none
  | c :: rest =>
    if c == '0' then some ([c], rest)
    else if c.isDigit then
      match takeDigits rest with
      | (ds, rest2) => some (c :: ds, rest2)
    else none

def lexFracPart : List Char → Option (List Char × List Char)
  | '.' :: rest =>
    (match takeDigits rest with
     | ([], _) => none
     | (ds, rest2) => some ('.' :: ds, rest2))
  | cs => some ([], cs)

def lexExpPart : List Char → Option (List Char × List Char)
  | [] => some ([], [])
  | c :: rest =>
    if c == 'e' || c == 'E' then
      match rest with
      | s :: rest2 =>
        if s == '+' || s == '-' then
          match takeDigits rest2 with
          | ([], _) => none
          | (ds, rest3) => some (c :: s :: ds, rest3)
        else
          match takeDigits rest with
          | ([], _) => none
          | (ds, rest3) => some (c :: ds, rest3)
      | [] => none
    else some ([], c :: rest)

def lexNumber (cs : List Char) : Option (List Char × List Char) :=
  match cs with
  | '-' :: rest =>
    match lexNumberBody rest with
    | none => none
    | some (ip, rest1) =>
      match lexFracPart rest1 with
      | none => none
      | some (fp, rest2) =>
        match lexExpPart rest2 with
        | none => none
        | some (ep, rest3) => some ('-' :: (ip ++ fp ++ ep), rest3)
  | _ =>
    match lexNumberBody cs with
    | none => none
    | some (ip, rest1) =>
      match lexFracPart rest1 with
      | none => none
      | some (fp, rest2) =>
        match lexExpPart rest2 with
        | none => none
        | some (ep, rest3) => some (ip ++ fp ++ ep, rest3)

mutual

def parseVal : Nat → List Char → Option (Json × List Char)
  | 0, _ => none
  | fuel + 1, cs =>
    match skipWs cs with
    | [] => none
    | 'n' :: 'u' :: 'l' :: 'l' :: rest => some (.null, rest)
    | 't' :: 'r' :: 'u' :: 'e' :: rest => some (.bool true, rest)
    | 'f' :: 'a' :: 'l' :: 's' :: 'e' :: rest => some (.bool false, rest)
    | '"' :: rest =>
      (lexStringContent rest).map (fun p => (.str (String.mk p.1), p.2))
    | '[' :: rest =>
      (match skipWs rest with
       | ']' :: rest2 => some (.arr [], rest2)
       | rest1 => (parseElems fuel rest1).map (fun p => (.arr p.1, p.2)))
    | '\x7b' :: rest =>
      (match skipWs rest with
       | '\x7d' :: rest2 => some (.obj [], rest2)
       | rest1 => (parseMembers fuel rest1).map (fun p => (.obj p.1, p.2)))
    | c :: rest =>
      if c == '-' || c.isDigit then
        (lexNumber (c :: rest)).map (fun p => (.num (String.mk p.1), p.2))
      else none

def parseElems : Nat → List Char → Option (List Json × List Char)
  | 0, _ => none
  | fuel + 1, cs =>
    match parseVal fuel cs with
    | none => none
    | some (v, rest) =>
      match skipWs rest with
      | ',' :: rest2 => (parseElems fuel rest2).map (fun p => (v :: p.1, p.2))
      | ']' :: rest2 => some ([v], rest2)
      | _ => none

def parseMembers : Nat → List Char → Option (List (String × Json) × List Char)
  | 0, _ => none
  | fuel + 1, cs =>
    match skipWs cs with
    | '"' :: rest =>
      (match lexStringContent rest with
       | none => none
       | some (key, rest1) =>
         match skipWs rest1 with
         | ':' :: rest2 =>
           (match parseVal fuel rest2 with
            | none => none
            | some (v, rest3) =>
              match skipWs rest3 with
              | ',' :: rest4 =>
                (parseMembers fuel rest4).map
                  (fun p => ((String.mk key, v) :: p.1, p.2))
              | '\x7d' :: rest4 => some ([(String.mk key, v)], rest4)
              | _ => none)
         | _ => none)
    | _ => none

end

/-- Model of `JSON.parse`: parse one value, allowing surrounding
whitespace, and require the whole input to be consumed. -/
def jsonParse (s : String) : Option Json :=
  match parseVal (2 * s.data.length + 2) s.data with
  | some (v, rest) => if (skipWs rest).isEmpty then some v else none
  | none => none

/-! ## `text.match(/\[[\s\S]*\]/)` : the bracket-span extraction

The regex is greedy: a match, when one exists, runs from the first `[`
of the text to the last `]`, and exists exactly when some `]` occurs
after the first `[`. -/

def extractBracketSpan (cs : List Char) : Option (List Char) :=
  let fromFirst := cs.dropWhile (fun c => c != '[')
  let trimmed := (fromFirst.reverse.dropWhile (fun c => c != ']')).reverse
  if 2 ≤ trimmed.length then some trimmed else none

def extractJson (s : String) : Option String :=
  (extractBracketSpan s.data).map String.mk

/-! ## `String.prototype.includes` and the catch-block error translation -/

def listContainsSub (needle : List Char) : List Char → Bool
  | [] => needle.isEmpty
  | c :: rest => needle.isPrefixOf (c :: rest) || listContainsSub needle rest

def containsSubstring (hay needle : String) : Bool :=
  listContainsSub needle.data hay.data

/-- The catch block of `fetchPredictions`: a message containing "429" is
rewritten to the quota message; otherwise `error.message` is re-thrown,
with the fixed fallback when the message is empty/absent (`""` models a
falsy `error.message`). -/
def translateError (msg : String) : String :=
  if containsSubstring msg "429" then
    "Daily AI limits reached. Please try again in 1 hour."
  else if msg = "" then "An unexpected error occurred."
  else msg

/-! ## Prompt construction (the template literal of lines 48-75) -/

/-- `excludeMatches.join(', ')`. -/
def joinComma : List String → String
  | [] => ""
  | [s] => s
  | s :: t :: rest => s ++ ", " ++ joinComma (t :: rest)

/-- The interpolated conditional
`excludeMatches.length > 0 ? `Try to find ...` : ''`. -/
def exclusionClause (excludeMatches : List String) : String :=
  if excludeMatches.length > 0 then
    "Try to find a different set of matches than these: " ++
      joinComma excludeMatches ++ "."
  else ""

def promptHead (today : String) : String :=
  "\n    Analyze REAL football matches scheduled for today, " ++ today ++
  ". \n    Search for top fixtures in major leagues (English Premier League, La Liga, Serie A, Bundesliga, Ligue 1, etc.).\n    \n    Select exactly 5 \"surest\" match predictions. Use current team form, player injuries/suspensions, head-to-head records, and tactical stakes as criteria.\n    "

def promptTail : String :=
  "\n    \n    CRITICAL MARKET DIVERSITY: \n    Select the safest option for each match from: Double Chance (1X, X2), Over/Under Goals (O1.5, U3.5), Draw No Bet (DNB), Both Teams to Score (BTTS).\n\n    Return ONLY a JSON array of 5 objects:\n    [\n      \x7b\n        \"match\": \"Team A vs Team B\",\n        \"league\": \"League Name\",\n        \"kickoffTime\": \"HH:MM GMT\",\n        \"analysis\": \x7b\n          \"form\": \"Detailed form info\",\n          \"keyPlayers\": \"Injury/player news\",\n          \"last5Games\": \"H2H data\",\n          \"conditions\": \"Pitch/weather/stadium\"\n        \x7d,\n        \"betRecommendation\": \"Recommended Market\",\n        \"confidence\": 95,\n        \"marketOption\": \"CODE\"\n      \x7d\n    ]\n  "

def buildPrompt (today : String) (excludeMatches : List String) : String :=
  promptHead today ++ exclusionClause excludeMatches ++ promptTail

/-! ## Grounding-source extraction and de-duplication -/

/-- `chunk.web` with its `uri`/`title` fields; `""` models an
absent-or-empty (falsy) field. -/
structure WebChunk where
  uri : String
  title : String

structure Chunk where
  web : Option WebChunk

/-- One iteration of the `chunks.forEach` loop: push a source when
`chunk.web?.uri` is truthy, with `title` falling back to `uri`. -/
def chunkStep (acc : List GroundingSource) (chunk : Chunk) :
    List GroundingSource :=
  match chunk.web with
  | some w =>
    if w.uri != "" then
      acc ++ [{ title := if w.title != "" then w.title else w.uri,
                uri := w.uri }]
    else acc
  | none => acc

/-- The `chunks.forEach(... sources.push ...)` loop. -/
def chunkSources (chunks : List Chunk) : List GroundingSource :=
  chunks.foldl chunkStep []

/-- `Array.from(new Set(l))`: insertion-ordered distinct elements. -/
def setFromList (l : List String) : List String :=
  l.foldl (fun acc u => if u ∈ acc then acc else acc ++ [u]) []

/-- `Array.from(new Set(sources.map(s => s.uri))).map(uri =>
sources.find(s => s.uri === uri))`, with `find`'s impossible
`undefined` result totalised away by `filterMap`. -/
def dedupByUri (sources : List GroundingSource) : List GroundingSource :=
  (setFromList (sources.map (fun s => s.uri))).filterMap
    (fun uri => sources.find? (fun s => s.uri == uri))

/-! ## Claim-side (specification) vocabulary -/

/-- The text contains a `[...]` substring: some `[` with a later `]`. -/
def hasBracketSpan : List Char → Bool
  | [] => false
  | c :: rest => (c == '[' && rest.contains ']') || hasBracketSpan rest

/-- `s` is a syntactically valid JSON array literal: it begins with
`[`, ends with `]`, and `JSON.parse` accepts it as an array. -/
def isJsonArrayLiteral (s : String) : Bool :=
  s.data.head? == some '[' && s.data.reverse.head? == some ']' &&
    (match jsonParse s with
     | some (Json.arr _) => true
     | _ => false)

/-- Claim-side source extraction: one `GroundingSource` per chunk with
a web citation and a usable `uri`, `title` defaulting to `uri`. -/
def claimChunkSource (c : Chunk) : Option GroundingSource :=
  match c.web with
  | some w =>
    if w.uri ≠ "" then
      some { title := if w.title ≠ "" then w.title else w.uri, uri := w.uri }
    else none
  | none => none

/-- Claim-side de-duplication: keep the first occurrence of each `uri`,
in original order. -/
def keepFirstByUri : List GroundingSource → List GroundingSource
  | [] => []
  | s :: rest => s :: keepFirstByUri (rest.filter (fun t => t.uri ≠ s.uri))
termination_by l => l.length
decreasing_by
  simp only [List.length_cons]
  exact Nat.lt_succ_of_le (List.length_filter_le _ _)

/-- First-occurrence characterisation of `setFromList`. -/
def firstOccur : List String → List String
  | [] => []
  | u :: rest => u :: firstOccur (rest.filter (fun v => v ≠ u))
termination_by l => l.length
decreasing_by
  simp only [List.length_cons]
  exact Nat.lt_succ_of_le (List.length_filter_le _ _)

/-! ## The service function `fetchPredictions` -/

structure ModelResponse where
  text : String
  chunks : List Chunk

/-- Environment of one call: `ai.models.generateContent` either returns
a response or rejects with an error whose message is `message`
(`""` models an error without a message). -/
inductive NetOutcome where
  | ok (resp : ModelResponse)
  | err (message : String)

/-- Observable side effects of a workflow run. -/
inductive Effect where
  | netCall (prompt : String)
  | cacheRead
  | cacheDelete
  | cacheWrite (predictions : List Json) (sources : List GroundingSource)
      (timestamp : Int)

structure FetchOk where
  predictions : List Json
  sources : List GroundingSource

/-- The service function of src/index.tsx lines 36-122.  `apiKey = ""`
models a missing `process.env.API_KEY` (both are falsy in JS).  The
parsed predictions are kept as raw `Json` values: the source casts the
`JSON.parse` result without validating its shape. -/
def fetchPredictions (apiKey : String) (excludeMatches : List String)
    (today : String) (net : NetOutcome) :
    Except String FetchOk × List Effect :=
  if apiKey = "" then
    (.error "API_KEY is missing in Vercel settings.", [])
  else
    match net with
    | .err msg =>
      (.error (translateError msg), [.netCall (buildPrompt today excludeMatches)])
    | .ok resp =>
      match extractJson resp.text with
      | none =>
        (.error (translateError "The AI could not find enough quality matches for today. Try refreshing."),
         [.netCall (buildPrompt today excludeMatches)])
      | some span =>
        match jsonParse span with
        | some (Json.arr xs) =>
          (.ok { predictions := xs.take 5,
                 sources := dedupByUri (chunkSources resp.chunks) },
           [.netCall (buildPrompt today excludeMatches)])
        | _ =>
          (.error (translateError "The AI returned invalid data. Please try again."),
           [.netCall (buildPrompt today excludeMatches)])

/-! ## The cached variant of the workflow -/

structure CacheEntry where
  predictions : List Json
  sources : List GroundingSource
  timestamp : Int

structure FetchResult where
  predictions : List Json
  sources : List GroundingSource
  fromCache : Bool

def freshnessWindowMs : Int := 4 * 60 * 60 * 1000

/-- Modelled from the spec: the live branch of the cached workflow
variant (spec section 4.1, steps 2-7).  This variant of the source is
not under src/; only the README ("Smart Caching ... 4 hours") and the
spec describe it.  It shares the src/index.tsx prompt, parsing and
error translation, and on success writes the cache entry. -/
def cachedLive (excludeMatches : List String) (now : Int) (apiKey : String)
    (today : String) (net : NetOutcome) (pre : List Effect) :
    Except String FetchResult × List Effect :=
  if apiKey = "" then
    (.error "API_KEY is missing in Vercel settings.", pre)
  else
    match net with
    | .err msg =>
      (.error (translateError msg), pre ++ [.netCall (buildPrompt today excludeMatches)])
    | .ok resp =>
      match extractJson resp.text with
      | none =>
        (.error (translateError "The AI could not find enough quality matches for today. Try refreshing."),
         pre ++ [.netCall (buildPrompt today excludeMatches)])
      | some span =>
        match jsonParse span with
        | some (Json.arr xs) =>
          (.ok { predictions := xs.take 5,
                 sources := dedupByUri (chunkSources resp.chunks),
                 fromCache := false },
           pre ++ [.netCall (buildPrompt today excludeMatches),
                   .cacheWrite (xs.take 5) (dedupByUri (chunkSources resp.chunks)) now])
        | _ =>
          (.error (translateError "The AI returned invalid data. Please try again."),
           pre ++ [.netCall (buildPrompt today excludeMatches)])

/-- Modelled from the spec: the cached workflow variant
`fetch(forceRefresh, excludeMatches)` (spec section 4.1; README
"Smart Caching ... saving results for 4 hours"); this variant is not
under src/.  `stored` is the persisted cache slot: `none` = absent,
`some none` = present but unparseable, `some (some e)` = parseable
entry `e`.  Step order follows the spec: cache check (skipped when
forced), then credential precondition, then the live call. -/
def cachedFetch (forceRefresh : Bool) (excludeMatches : List String)
    (now : Int) (stored : Option (Option CacheEntry)) (apiKey : String)
    (today : String) (net : NetOutcome) :
    Except String FetchResult × List Effect :=
  if forceRefresh then
    cachedLive excludeMatches now apiKey today net []
  else
    match stored with
    | some (some e) =>
      if now - e.timestamp ≤ freshnessWindowMs then
        (.ok { predictions := e.predictions, sources := e.sources,
               fromCache := true }, [.cacheRead])
      else
        cachedLive excludeMatches now apiKey today net [.cacheRead]
    | some none =>
      cachedLive excludeMatches now apiKey today net [.cacheRead, .cacheDelete]
    | none =>
      cachedLive excludeMatches now apiKey today net [.cacheRead]

/-! ## The UI call sites of `loadData` (src/index.tsx lines 228-242) -/

/-- The argument `isRefresh ? state.predictions.map(p => p.match) : []`
passed to `fetchPredictions` by `loadData`. -/
def loadDataExclusionArg (isRefresh : Bool)
    (statePredictions : List Prediction) : List String :=
  if isRefresh then statePredictions.map (fun p => p.«match») else []

/-- The three UI triggers of `loadData`. -/
inductive LoadTrigger where
  | initialLoad
  | refreshButton
  | retryButton

/-- The `isRefresh` argument each trigger passes: the refresh button
calls `loadData(true)`; the initial `useEffect` and the retry button
call `loadData()` whose parameter defaults to `false`. -/
def loadTriggerIsRefresh : LoadTrigger → Bool
  | .refreshButton => true
  | .initialLoad => false
  | .retryButton => false

/-! ## Helper lemmas -/

theorem translateError_ne_empty (msg : String) : translateError msg ≠ "" := by
  unfold translateError
  split
  · decide
  · split
    · decide
    · assumption

theorem translateError_of_plain (msg : String)
    (h429 : containsSubstring msg "429" = false) (hne : msg ≠ "") :
    translateError msg = msg := by
  simp [translateError, h429, hne]

/-- Every run of the service function yields the configuration error, a
catch-translated error, or a success value. -/
theorem fetchPredictions_fst_cases (apiKey : String) (excl : List String)
    (today : String) (net : NetOutcome) :
    (fetchPredictions apiKey excl today net).1 =
      .error "API_KEY is missing in Vercel settings." ∨
    (∃ msg, (fetchPredictions apiKey excl today net).1 =
      .error (translateError msg)) ∨
    (∃ xs srcs, (fetchPredictions apiKey excl today net).1 =
      .ok { predictions := xs, sources := srcs }) := by
  by_cases hk : apiKey = ""
  · left
    simp [fetchPredictions, hk]
  · cases net with
    | err msg =>
      right; left
      exact ⟨msg, by simp [fetchPredictions, hk]⟩
    | ok resp =>
      rcases hE : extractJson resp.text with _ | span
      · right; left
        exact ⟨"The AI could not find enough quality matches for today. Try refreshing.",
          by simp [fetchPredictions, hk, hE]⟩
      · rcases hJ : jsonParse span with _ | j
        · right; left
          exact ⟨"The AI returned invalid data. Please try again.",
            by simp [fetchPredictions, hk, hE, hJ]⟩
        · cases j with
          | arr xs =>
            right; right
            exact ⟨xs.take 5, dedupByUri (chunkSources resp.chunks),
              by simp [fetchPredictions, hk, hE, hJ]⟩
          | null =>
            right; left
            exact ⟨"The AI returned invalid data. Please try again.",
              by simp [fetchPredictions, hk, hE, hJ]⟩
          | bool b =>
            right; left
            exact ⟨"The AI returned invalid data. Please try again.",
              by simp [fetchPredictions, hk, hE, hJ]⟩
          | num s =>
            right; left
            exact ⟨"The AI returned invalid data. Please try again.",
              by simp [fetchPredictions, hk, hE, hJ]⟩
          | str s =>
            right; left
            exact ⟨"The AI returned invalid data. Please try again.",
              by simp [fetchPredictions, hk, hE, hJ]⟩
          | obj ms =>
            right; left
            exact ⟨"The AI returned invalid data. Please try again.",
              by simp [fetchPredictions, hk, hE, hJ]⟩

/-! ## Claim theorems -/

/-- C2: when the API credential is missing (`process.env.API_KEY` is
falsy, modelled as `""`), `fetchPredictions` fails immediately with the
configuration error and produces no side effect at all: no network call
and no cache read or write. -/
theorem c2_missing_credential_fails_without_effects
    (apiKey : String) (excl : List String) (today : String)
    (net : NetOutcome) (hkey : apiKey = "") :
    fetchPredictions apiKey excl today net =
      (.error "API_KEY is missing in Vercel settings.", []) ∧
    ∀ eff, eff ∉ (fetchPredictions apiKey excl today net).2 := by
  subst hkey
  have hfix : fetchPredictions "" excl today net =
      (.error "API_KEY is missing in Vercel settings.", []) := by
    simp [fetchPredictions]
  refine ⟨hfix, ?_⟩
  intro eff h
  rw [hfix] at h
  exact (List.not_mem_nil eff) h

/-- Witness for C2 at a concrete input. -/
theorem c2_missing_credential_fails_without_effects_witness :
    fetchPredictions "" [] "11 October 2025" (.err "boom") =
      (.error "API_KEY is missing in Vercel settings.", []) ∧
    ∀ eff, eff ∉ (fetchPredictions "" [] "11 October 2025" (.err "boom")).2 :=
  c2_missing_credential_fails_without_effects "" [] "11 October 2025"
    (.err "boom") rfl

/-- C9: the exclusion list `loadData` passes to the fetch workflow is
the `match` field of each prediction in state, in display order, for
the refresh-button trigger (`loadData(true)`), and empty for the
initial automatic load and the error-retry trigger (both `loadData()`,
whose `isRefresh` parameter defaults to `false`). -/
theorem c9_load_data_exclusion_argument (preds : List Prediction) :
    loadDataExclusionArg (loadTriggerIsRefresh .refreshButton) preds =
      preds.map (fun p => p.«match») ∧
    loadDataExclusionArg (loadTriggerIsRefresh .initialLoad) preds = [] ∧
    loadDataExclusionArg (loadTriggerIsRefresh .retryButton) preds = [] :=
  ⟨rfl, rfl, rfl⟩

/-- C6 counterexample: an external failure whose error carries no
message (modelled as `""`, falsy exactly like a missing `message`)
does not contain "429", yet the surfaced message is the fixed fallback
text rather than the raw message propagated unchanged. -/
theorem c6_counterexample :
    containsSubstring "" "429" = false ∧
    (fetchPredictions "key" [] "11 October 2025" (.err "")).1 =
      .error "An unexpected error occurred." ∧
    "An unexpected error occurred." ≠ "" :=
  ⟨rfl, rfl, by decide⟩

/-- C6 (amended): a failure whose message contains "429" is surfaced as
the fixed quota message, which differs from the raw message and carries
the wait-window hint "in 1 hour"; any other failure with a non-empty
message is propagated unchanged; a failure with an empty (or missing)
message is surfaced as the fixed fallback text. -/
theorem c6_error_translation (apiKey : String) (excl : List String)
    (today msg : String) (hkey : apiKey ≠ "") :
    (containsSubstring msg "429" = true →
      (fetchPredictions apiKey excl today (.err msg)).1 =
        .error "Daily AI limits reached. Please try again in 1 hour." ∧
      "Daily AI limits reached. Please try again in 1 hour." ≠ msg ∧
      containsSubstring "Daily AI limits reached. Please try again in 1 hour."
        "in 1 hour" = true) ∧
    (containsSubstring msg "429" = false → msg ≠ "" →
      (fetchPredictions apiKey excl today (.err msg)).1 = .error msg) ∧
    (containsSubstring msg "429" = false → msg = "" →
      (fetchPredictions apiKey excl today (.err msg)).1 =
        .error "An unexpected error occurred.") := by
  have hfst : (fetchPredictions apiKey excl today (.err msg)).1 =
      .error (translateError msg) := by
    simp [fetchPredictions, hkey]
  refine ⟨?_, ?_, ?_⟩
  · intro h429
    refine ⟨?_, ?_, rfl⟩
    · rw [hfst]
      simp [translateError, h429]
    · intro heq
      rw [← heq] at h429
      exact absurd h429 (by decide)
  · intro h429 hne
    rw [hfst, translateError_of_plain msg h429 hne]
  · intro h429 hemp
    subst hemp
    rw [hfst]
    rfl

/-- Witness for C6 (amended) at concrete inputs. -/
theorem c6_error_translation_witness :
    (fetchPredictions "key" [] "11 October 2025" (.err "code 429 hit")).1 =
      .error "Daily AI limits reached. Please try again in 1 hour." ∧
    (fetchPredictions "key" [] "11 October 2025" (.err "network down")).1 =
      .error "network down" :=
  ⟨((c6_error_translation "key" [] "11 October 2025" "code 429 hit"
      (by decide)).1 (by rfl)).1,
   (c6_error_translation "key" [] "11 October 2025" "network down"
      (by decide)).2.1 (by rfl) (by decide)⟩

/-- C10: every failure of `fetchPredictions` is surfaced with a
non-empty message; an external error without a message surfaces the
fixed fallback text; the internally raised malformed-response errors
pass through the final catch-block translation with their message
preserved. -/
theorem c10_failure_messages :
    (∀ apiKey excl today net e,
      (fetchPredictions apiKey excl today net).1 = .error e → e ≠ "") ∧
    (∀ apiKey excl today, apiKey ≠ "" →
      (fetchPredictions apiKey excl today (.err "")).1 =
        .error "An unexpected error occurred.") ∧
    (∀ apiKey excl today resp, apiKey ≠ "" → extractJson resp.text = none →
      (fetchPredictions apiKey excl today (.ok resp)).1 =
        .error "The AI could not find enough quality matches for today. Try refreshing.") ∧
    (∀ apiKey excl today resp span, apiKey ≠ "" →
      extractJson resp.text = some span → jsonParse span = none →
      (fetchPredictions apiKey excl today (.ok resp)).1 =
        .error "The AI returned invalid data. Please try again.") := by
  refine ⟨?_, ?_, ?_, ?_⟩
  · intro apiKey excl today net e h
    rcases fetchPredictions_fst_cases apiKey excl today net with hc | ⟨msg, hc⟩ | ⟨xs, srcs, hc⟩
    · rw [hc] at h
      injection h with h2
      subst h2
      decide
    · rw [hc] at h
      injection h with h2
      subst h2
      exact translateError_ne_empty msg
    · rw [hc] at h
      exact Except.noConfusion h
  · intro apiKey excl today hkey
    simp [fetchPredictions, hkey]
    rfl
  · intro apiKey excl today resp hkey hE
    simp [fetchPredictions, hkey, hE]
    rfl
  · intro apiKey excl today resp span hkey hE hJ
    simp [fetchPredictions, hkey, hE, hJ]
    rfl

/-- Witness for C10 at concrete inputs. -/
theorem c10_failure_messages_witness :
    "API_KEY is missing in Vercel settings." ≠ "" ∧
    (fetchPredictions "key" [] "11 October 2025" (.err "")).1 =
      .error "An unexpected error occurred." :=
  ⟨c10_failure_messages.1 "" [] "11 October 2025" (.err "x")
      "API_KEY is missing in Vercel settings." (by rfl),
   c10_failure_messages.2.1 "key" [] "11 October 2025" (by decide)⟩

/-- C4: a successfully parsed predictions array is truncated to at most
5 entries and never padded: the returned predictions are the parsed
array's first `min 5 length` elements in original order - exactly the
first 5 when more than 5 were parsed, and exactly the parsed elements,
with no padding and no error, when 5 or fewer were parsed. -/
theorem c4_truncate_to_five (apiKey : String) (excl : List String)
    (today text : String) (chunks : List Chunk) (span : String)
    (xs : List Json) (hkey : apiKey ≠ "")
    (hspan : extractJson text = some span)
    (hparse : jsonParse span = some (Json.arr xs)) :
    ∃ r, (fetchPredictions apiKey excl today
        (.ok { text := text, chunks := chunks })).1 = .ok r ∧
      r.predictions = xs.take 5 ∧
      r.predictions.length = min xs.length 5 ∧
      (xs.length ≤ 5 → r.predictions = xs) ∧
      (5 ≤ xs.length → r.predictions.length = 5) := by
  refine ⟨{ predictions := xs.take 5,
            sources := dedupByUri (chunkSources chunks) }, ?_, rfl, ?_, ?_, ?_⟩
  · simp [fetchPredictions, hkey, hspan, hparse]
  · simpa [List.length_take] using Nat.min_comm 5 xs.length
  · intro hle
    exact List.take_of_length_le hle
  · intro hge
    simp [List.length_take, Nat.min_eq_left hge]

/-- Witness for C4 at a concrete six-element response. -/
theorem c4_truncate_to_five_witness :
    ∃ r, (fetchPredictions "key" [] "11 October 2025"
        (.ok { text := "[true, false, null, true, false, null]",
               chunks := [] })).1 = .ok r ∧
      r.predictions = ([Json.bool true, Json.bool false, Json.null,
        Json.bool true, Json.bool false, Json.null] : List Json).take 5 ∧
      r.predictions.length =
        min ([Json.bool true, Json.bool false, Json.null,
          Json.bool true, Json.bool false, Json.null] : List Json).length 5 ∧
      (([Json.bool true, Json.bool false, Json.null, Json.bool true,
          Json.bool false, Json.null] : List Json).length ≤ 5 →
        r.predictions = [Json.bool true, Json.bool false, Json.null,
          Json.bool true, Json.bool false, Json.null]) ∧
      (5 ≤ ([Json.bool true, Json.bool false, Json.null, Json.bool true,
          Json.bool false, Json.null] : List Json).length →
        r.predictions.length = 5) :=
  c4_truncate_to_five "key" [] "11 October 2025"
    "[true, false, null, true, false, null]" []
    "[true, false, null, true, false, null]"
    [Json.bool true, Json.bool false, Json.null,
     Json.bool true, Json.bool false, Json.null]
    (by decide) (by rfl) (by rfl)

theorem extractBracketSpan_cons_of_ne (c : Char) (rest : List Char)
    (hc : c ≠ '[') :
    extractBracketSpan (c :: rest) = extractBracketSpan rest := by
  have hb : (c != '[') = true := bne_iff_ne.mpr hc
  simp only [extractBracketSpan, List.dropWhile_cons, hb, if_true]

theorem extractBracketSpan_eq_none (cs : List Char)
    (h : hasBracketSpan cs = false) : extractBracketSpan cs = none := by
  induction cs with
  | nil => rfl
  | cons c rest ih =>
    rw [hasBracketSpan] at h
    have h1 : (c == '[' && rest.contains ']') = false := by
      cases hcc : (c == '[' && rest.contains ']') with
      | false => rfl
      | true => rw [hcc] at h; simp at h
    have h2 : hasBracketSpan rest = false := by
      cases hcc : hasBracketSpan rest with
      | false => rfl
      | true => rw [hcc] at h; simp at h
    by_cases hc : c = '['
    · subst hc
      have hcont : rest.contains ']' = false := by simpa using h1
      have hnotin : ∀ x ∈ rest, (x != ']') = true := by
        intro x hx
        refine bne_iff_ne.mpr ?_
        intro hxe
        subst hxe
        have hmem : rest.contains ']' = true := by
          simp [List.contains, List.elem_eq_mem, hx]
        rw [hmem] at hcont
        exact Bool.noConfusion hcont
      have hdrop : List.dropWhile (fun a => a != ']')
          (rest.reverse ++ ['[']) = [] := by
        refine List.dropWhile_eq_nil_iff.mpr ?_
        intro x hx
        rcases List.mem_append.mp hx with h3 | h3
        · exact hnotin x (List.mem_reverse.mp h3)
        · rcases List.mem_singleton.mp h3 with rfl
          decide
      simp [extractBracketSpan, List.dropWhile_cons, hdrop]
    · rw [extractBracketSpan_cons_of_ne c rest hc]
      exact ih h2

/-- C5: a model response whose text contains no `[...]` substring (no
`[` followed later by `]`) makes the fetch fail with the "no quality
matches" malformed-response error, and no cache write occurs. -/
theorem c5_no_array_malformed_error (apiKey : String) (excl : List String)
    (today : String) (resp : ModelResponse) (hkey : apiKey ≠ "")
    (hnb : hasBracketSpan resp.text.data = false) :
    (fetchPredictions apiKey excl today (.ok resp)).1 =
      .error "The AI could not find enough quality matches for today. Try refreshing." ∧
    ∀ ps ss ts, Effect.cacheWrite ps ss ts ∉
      (fetchPredictions apiKey excl today (.ok resp)).2 := by
  have hE : extractJson resp.text = none := by
    unfold extractJson
    rw [extractBracketSpan_eq_none resp.text.data hnb]
    rfl
  constructor
  · simp [fetchPredictions, hkey, hE]
    rfl
  · intro ps ss ts hmem
    have h2 : (fetchPredictions apiKey excl today (.ok resp)).2 =
        [Effect.netCall (buildPrompt today excl)] := by
      simp [fetchPredictions, hkey, hE]
    rw [h2] at hmem
    simp at hmem

/-- Witness for C5 at a concrete bracket-free response. -/
theorem c5_no_array_malformed_error_witness :
    (fetchPredictions "key" [] "11 October 2025"
        (.ok { text := "nothing useful today", chunks := [] })).1 =
      .error "The AI could not find enough quality matches for today. Try refreshing." ∧
    ∀ ps ss ts, Effect.cacheWrite ps ss ts ∉
      (fetchPredictions "key" [] "11 October 2025"
        (.ok { text := "nothing useful today", chunks := [] })).2 :=
  c5_no_array_malformed_error "key" [] "11 October 2025"
    { text := "nothing useful today", chunks := [] } (by decide) (by rfl)

/-- C1 (spec-modelled): with `forceRefresh = false` and a parseable
persisted entry whose age is within the 4-hour freshness window, the
cached workflow returns the cached predictions and sources with
`fromCache = true`, performs exactly one cache read, and makes no
network call. -/
theorem c1_fresh_cache_hit (excl : List String) (now : Int) (e : CacheEntry)
    (stored : Option (Option CacheEntry)) (apiKey today : String)
    (net : NetOutcome) (hstored : stored = some (some e))
    (hfresh : now - e.timestamp ≤ freshnessWindowMs) :
    cachedFetch false excl now stored apiKey today net =
      (.ok { predictions := e.predictions, sources := e.sources,
             fromCache := true }, [Effect.cacheRead]) ∧
    ∀ p, Effect.netCall p ∉
      (cachedFetch false excl now stored apiKey today net).2 := by
  subst hstored
  have hfix : cachedFetch false excl now (some (some e)) apiKey today net =
      (.ok { predictions := e.predictions, sources := e.sources,
             fromCache := true }, [Effect.cacheRead]) := by
    simp [cachedFetch, hfresh]
  refine ⟨hfix, ?_⟩
  intro p hmem
  rw [hfix] at hmem
  simp at hmem

/-- Witness for C1 at a concrete fresh cache entry. -/
theorem c1_fresh_cache_hit_witness :
    cachedFetch false [] 1000000
        (some (some { predictions := [Json.null], sources := [],
                      timestamp := 400000 })) "key" "11 October 2025"
        (.err "offline") =
      (.ok { predictions := [Json.null], sources := [], fromCache := true },
       [Effect.cacheRead]) ∧
    ∀ p, Effect.netCall p ∉ (cachedFetch false [] 1000000
        (some (some { predictions := [Json.null], sources := [],
                      timestamp := 400000 })) "key" "11 October 2025"
        (.err "offline")).2 :=
  c1_fresh_cache_hit [] 1000000
    { predictions := [Json.null], sources := [], timestamp := 400000 }
    (some (some { predictions := [Json.null], sources := [],
                  timestamp := 400000 })) "key" "11 October 2025"
    (.err "offline") rfl (by decide)

theorem infix_joinComma (m : String) :
    ∀ l : List String, m ∈ l → m.data <:+: (joinComma l).data := by
  intro l
  induction l with
  | nil => intro h; exact absurd h (List.not_mem_nil m)
  | cons s rest ih =>
    intro hm
    cases rest with
    | nil =>
      rcases List.mem_singleton.mp hm with rfl
      exact List.infix_refl _
    | cons t rest2 =>
      rw [joinComma, String.data_append, String.data_append]
      rcases List.mem_cons.mp hm with rfl | hm2
      · refine List.IsPrefix.isInfix ?_
        rw [List.append_assoc]
        exact List.prefix_append _ _
      · exact (ih hm2).trans
          (List.IsSuffix.isInfix (List.suffix_append _ _))

/-- The live branch always records the network call with the built
prompt, whatever the response outcome is. -/
theorem netCall_mem_cachedLive (excl : List String) (now : Int)
    (apiKey today : String) (net : NetOutcome) (pre : List Effect)
    (hkey : apiKey ≠ "") :
    Effect.netCall (buildPrompt today excl) ∈
      (cachedLive excl now apiKey today net pre).2 := by
  unfold cachedLive
  rw [if_neg hkey]
  cases net with
  | err msg => simp
  | ok resp =>
    rcases hE : extractJson resp.text with _ | span
    · simp [hE]
    · rcases hJ : jsonParse span with _ | j
      · simp [hE, hJ]
      · cases j <;> simp [hE, hJ]

/-- C8: `fetch(true, excludeMatches)` always performs the live network
call regardless of cache state (given the credential is configured),
each excluded match string occurs verbatim inside the outbound prompt,
and with an empty exclusion list no exclusion sentence is added: the
interpolated clause is empty and the prompt is exactly head ++ tail. -/
theorem c8_force_refresh_prompt (excl : List String) (today : String)
    (now : Int) (stored : Option (Option CacheEntry)) (apiKey : String)
    (net : NetOutcome) (hkey : apiKey ≠ "") :
    Effect.netCall (buildPrompt today excl) ∈
      (cachedFetch true excl now stored apiKey today net).2 ∧
    (∀ m ∈ excl, m.data <:+: (buildPrompt today excl).data) ∧
    (excl = [] → exclusionClause excl = "" ∧
      buildPrompt today excl = promptHead today ++ promptTail) := by
  refine ⟨?_, ?_, ?_⟩
  · show Effect.netCall (buildPrompt today excl) ∈
      (cachedLive excl now apiKey today net []).2
    exact netCall_mem_cachedLive excl now apiKey today net [] hkey
  · intro m hm
    have hpos : excl.length > 0 := by
      rcases excl with _ | _
      · exact absurd hm (List.not_mem_nil m)
      · simp
    have hec : exclusionClause excl =
        "Try to find a different set of matches than these: " ++
          joinComma excl ++ "." := by
      rw [exclusionClause, if_pos hpos]
    have h1 : m.data <:+: (exclusionClause excl).data := by
      rw [hec, String.data_append, String.data_append]
      exact (infix_joinComma m excl hm).trans (List.infix_append _ _ _)
    have h2 : (exclusionClause excl).data <:+: (buildPrompt today excl).data := by
      rw [buildPrompt, String.data_append, String.data_append]
      exact List.infix_append _ _ _
    exact h1.trans h2
  · intro h
    subst h
    refine ⟨rfl, ?_⟩
    rw [buildPrompt, show exclusionClause ([] : List String) = "" from rfl]
    apply String.ext
    simp [String.data_append, show ("" : String).data = [] from rfl]

/-- Witness for C8 at a concrete exclusion list and empty cache. -/
theorem c8_force_refresh_prompt_witness :
    Effect.netCall (buildPrompt "11 October 2025" ["Team X vs Team Y"]) ∈
      (cachedFetch true ["Team X vs Team Y"] 0 none "key" "11 October 2025"
        (.err "offline")).2 ∧
    ("Team X vs Team Y" : String).data <:+:
      (buildPrompt "11 October 2025" ["Team X vs Team Y"]).data ∧
    exclusionClause [] = "" :=
  ⟨(c8_force_refresh_prompt ["Team X vs Team Y"] "11 October 2025" 0 none
      "key" (.err "offline") (by decide)).1,
   (c8_force_refresh_prompt ["Team X vs Team Y"] "11 October 2025" 0 none
      "key" (.err "offline") (by decide)).2.1 "Team X vs Team Y" (by simp),
   ((c8_force_refresh_prompt ([] : List String) "11 October 2025" 0 none
      "key" (.err "offline") (by decide)).2.2 rfl).1⟩

theorem dropWhile_append_of_forall {α : Type} (p : α → Bool)
    (l₁ l₂ : List α) (h : ∀ c ∈ l₁, p c = true) :
    (l₁ ++ l₂).dropWhile p = l₂.dropWhile p := by
  induction l₁ with
  | nil => rfl
  | cons a l ih =>
    have ha : p a = true := h a (List.mem_cons_self a l)
    have ih2 := ih (fun c hc => h c (List.mem_cons_of_mem a hc))
    simp only [List.cons_append, List.dropWhile_cons, ha, if_true]
    exact ih2

/-- When the text decomposes as bracket-free prose, then a block
starting with `[` and ending with `]`, then `]`-free prose, the greedy
regex span is exactly that block. -/
theorem extractBracketSpan_of_decomp (pre arr post : List Char)
    (hpre : ∀ c ∈ pre, c ≠ '[') (hpost : ∀ c ∈ post, c ≠ ']')
    (hhead : arr.head? = some '[') (hlast : arr.reverse.head? = some ']') :
    extractBracketSpan (pre ++ arr ++ post) = some arr := by
  rcases List.head?_eq_some_iff.mp hhead with ⟨t, harr⟩
  rcases List.head?_eq_some_iff.mp hlast with ⟨r, hrev⟩
  have hlen : 2 ≤ arr.length := by
    rcases t with _ | ⟨x, t2⟩
    · rw [harr] at hrev
      simp at hrev
    · rw [harr]
      simp [List.length_cons]
  have h1 : (pre ++ arr ++ post).dropWhile (fun c => c != '[') =
      arr ++ post := by
    rw [List.append_assoc,
      dropWhile_append_of_forall _ pre (arr ++ post)
        (fun c hc => bne_iff_ne.mpr (hpre c hc))]
    rw [harr]
    simp [List.cons_append, List.dropWhile_cons]
  have h2 : (arr ++ post).reverse.dropWhile (fun c => c != ']') =
      arr.reverse := by
    rw [List.reverse_append,
      dropWhile_append_of_forall _ post.reverse arr.reverse
        (fun c hc => bne_iff_ne.mpr (hpost c (List.mem_reverse.mp hc)))]
    rw [hrev]
    simp [List.dropWhile_cons]
  simp only [extractBracketSpan, h1, h2, List.reverse_reverse]
  rw [if_pos hlen]

/-- C3 counterexample: this text contains the syntactically valid JSON
array literal "[1, 2]" surrounded by prose, yet the code's greedy
first-`[`-to-last-`]` span is "[a] then [1, 2]", which fails to parse,
so the fetch rejects instead of returning the parsed array. -/
theorem c3_counterexample :
    (∃ pre arr post, "Note [a] then [1, 2]" = pre ++ arr ++ post ∧
      isJsonArrayLiteral arr = true) ∧
    extractJson "Note [a] then [1, 2]" = some "[a] then [1, 2]" ∧
    (fetchPredictions "key" [] "11 October 2025"
        (.ok { text := "Note [a] then [1, 2]", chunks := [] })).1 =
      .error "The AI returned invalid data. Please try again." :=
  ⟨⟨"Note [a] then ", "[1, 2]", "", rfl, rfl⟩, rfl, rfl⟩

/-- C3 (amended): the extraction takes the span from the first `[` to
the last `]` of the whole text (a greedy match), not the first
top-level array.  Whenever the text is a valid JSON array literal
surrounded by prose with no `[` before it and no `]` after it, that
span is exactly the literal and parsing succeeds with its elements. -/
theorem c3_extraction_parses (pre arr post : String) (apiKey : String)
    (excl : List String) (today : String) (chunks : List Chunk)
    (hkey : apiKey ≠ "")
    (hpre : ∀ c ∈ pre.data, c ≠ '[')
    (hpost : ∀ c ∈ post.data, c ≠ ']')
    (harr : isJsonArrayLiteral arr = true) :
    extractJson (pre ++ arr ++ post) = some arr ∧
    ∃ xs, jsonParse arr = some (Json.arr xs) ∧
      (fetchPredictions apiKey excl today
          (.ok { text := pre ++ arr ++ post, chunks := chunks })).1 =
        .ok { predictions := xs.take 5,
              sources := dedupByUri (chunkSources chunks) } := by
  rw [isJsonArrayLiteral] at harr
  simp only [Bool.and_eq_true, beq_iff_eq] at harr
  obtain ⟨⟨hhead, hlast⟩, hmatch⟩ := harr
  have hspan : extractJson (pre ++ arr ++ post) = some arr := by
    unfold extractJson
    rw [String.data_append, String.data_append,
      extractBracketSpan_of_decomp pre.data arr.data post.data
        hpre hpost hhead hlast]
    rfl
  refine ⟨hspan, ?_⟩
  rcases hJ : jsonParse arr with _ | j
  · rw [hJ] at hmatch
    exact absurd hmatch (by simp)
  · rw [hJ] at hmatch
    cases j with
    | arr xs =>
      exact ⟨xs, rfl, by simp [fetchPredictions, hkey, hspan, hJ]⟩
    | null => exact absurd hmatch (by simp)
    | bool b => exact absurd hmatch (by simp)
    | num s => exact absurd hmatch (by simp)
    | str s => exact absurd hmatch (by simp)
    | obj ms => exact absurd hmatch (by simp)

/-- Witness for C3 (amended) at a concrete prose-wrapped array. -/
theorem c3_extraction_parses_witness :
    extractJson ("Prose: " ++ "[true, null]" ++ " end.") =
      some "[true, null]" ∧
    ∃ xs, jsonParse "[true, null]" = some (Json.arr xs) ∧
      (fetchPredictions "key" [] "11 October 2025"
          (.ok { text := "Prose: " ++ "[true, null]" ++ " end.",
                 chunks := [] })).1 =
        .ok { predictions := xs.take 5,
              sources := dedupByUri (chunkSources []) } :=
  c3_extraction_parses "Prose: " "[true, null]" " end." "key" []
    "11 October 2025" [] (by decide) (by decide) (by decide) (by rfl)

theorem firstOccur_nil : firstOccur [] = [] := by
  simp [firstOccur]

theorem keepFirstByUri_nil : keepFirstByUri [] = [] := by
  simp [keepFirstByUri]

theorem firstOccur_cons (u : String) (rest : List String) :
    firstOccur (u :: rest) = u :: firstOccur (rest.filter (fun v => v ≠ u)) := by
  simp [firstOccur]

theorem keepFirstByUri_cons (s : GroundingSource) (rest : List GroundingSource) :
    keepFirstByUri (s :: rest) =
      s :: keepFirstByUri (rest.filter (fun t => t.uri ≠ s.uri)) := by
  simp [keepFirstByUri]

theorem setFromList_aux : ∀ (l acc : List String),
    l.foldl (fun acc u => if u ∈ acc then acc else acc ++ [u]) acc =
      acc ++ firstOccur (l.filter (fun u => u ∉ acc)) := by
  intro l
  induction l with
  | nil =>
    intro acc
    simp [firstOccur]
  | cons u rest ih =>
    intro acc
    rw [List.foldl_cons]
    by_cases hmem : u ∈ acc
    · rw [if_pos hmem, ih acc, List.filter_cons_of_neg (by simp [hmem])]
    · rw [if_neg hmem, ih (acc ++ [u]),
        List.filter_cons_of_pos (by simp [hmem]), firstOccur_cons,
        List.filter_filter]
      have hpt : rest.filter (fun v => v ∉ acc ++ [u]) =
          rest.filter (fun a => decide (a ≠ u) && decide (a ∉ acc)) := by
        apply List.filter_congr
        intro v _
        by_cases h1 : v = u <;> by_cases h2 : v ∈ acc <;>
          simp [h1, h2, List.mem_append]
      rw [hpt, List.append_assoc]
      rfl

theorem setFromList_eq_firstOccur (l : List String) :
    setFromList l = firstOccur l := by
  unfold setFromList
  rw [setFromList_aux l []]
  have hfl : l.filter (fun u => u ∉ ([] : List String)) = l := by
    apply List.filter_eq_self.mpr
    intro a _
    simp
  rw [List.nil_append, hfl]

theorem find?_filter_of_imp {α : Type} (p q : α → Bool) (l : List α)
    (h : ∀ a, p a = true → q a = true) :
    (l.filter q).find? p = l.find? p := by
  induction l with
  | nil => rfl
  | cons a rest ih =>
    by_cases hq : q a = true
    · rw [List.filter_cons_of_pos hq]
      by_cases hp : p a = true
      · rw [List.find?_cons_of_pos _ hp, List.find?_cons_of_pos _ hp]
      · rw [List.find?_cons_of_neg _ hp, List.find?_cons_of_neg _ hp, ih]
    · rw [List.filter_cons_of_neg (by simpa using hq)]
      have hp : ¬ p a = true := fun hpa => hq (h a hpa)
      rw [List.find?_cons_of_neg _ hp, ih]

theorem mem_of_mem_firstOccur_aux : ∀ (n : Nat) (l : List String),
    l.length ≤ n → ∀ u, u ∈ firstOccur l → u ∈ l := by
  intro n
  induction n with
  | zero =>
    intro l hl u hu
    have : l = [] := List.length_eq_zero.mp (Nat.le_zero.mp hl)
    subst this
    simp [firstOccur] at hu
  | succ n ih =>
    intro l hl u hu
    match l with
    | [] => simp [firstOccur] at hu
    | v :: rest =>
      rw [firstOccur_cons] at hu
      rcases List.mem_cons.mp hu with rfl | h2
      · exact List.mem_cons_self _ _
      · have hlen : (rest.filter (fun t => t ≠ v)).length ≤ n := by
          have hf := List.length_filter_le (fun t => decide (t ≠ v)) rest
          simp only [List.length_cons] at hl
          omega
        have hin := ih _ hlen u h2
        exact List.mem_cons_of_mem _ (List.mem_filter.mp hin).1

theorem mem_of_mem_firstOccur (l : List String) (u : String)
    (h : u ∈ firstOccur l) : u ∈ l :=
  mem_of_mem_firstOccur_aux l.length l le_rfl u h

theorem dedupByUri_eq_keepFirstByUri (l : List GroundingSource) :
    dedupByUri l = keepFirstByUri l := by
  have main : ∀ n (l : List GroundingSource), l.length ≤ n →
      dedupByUri l = keepFirstByUri l := by
    intro n
    induction n with
    | zero =>
      intro l hl
      have : l = [] := List.length_eq_zero.mp (Nat.le_zero.mp hl)
      subst this
      rw [keepFirstByUri_nil]
      rfl
    | succ n ih =>
      intro l hl
      match l with
      | [] =>
        rw [keepFirstByUri_nil]
        rfl
      | s :: rest =>
        have hrest : rest.length ≤ n := by
          simp only [List.length_cons] at hl
          omega
        have hlenf : (rest.filter (fun t => t.uri ≠ s.uri)).length ≤ n :=
          le_trans (List.length_filter_le _ _) hrest
        have e2 : firstOccur ((s :: rest).map (fun x => x.uri)) =
            s.uri :: firstOccur
              ((rest.filter (fun t => t.uri ≠ s.uri)).map (fun x => x.uri)) := by
          rw [List.map_cons, firstOccur_cons, List.filter_map]
          rfl
        have e3 : (s :: rest).find? (fun t => t.uri == s.uri) = some s :=
          List.find?_cons_of_pos _ (by simp)
        have e4 : ∀ u ∈ firstOccur
            ((rest.filter (fun t => t.uri ≠ s.uri)).map (fun x => x.uri)),
            (s :: rest).find? (fun t => t.uri == u) =
              (rest.filter (fun t => t.uri ≠ s.uri)).find?
                (fun t => t.uri == u) := by
          intro u hu
          have humem := mem_of_mem_firstOccur _ _ hu
          rcases List.mem_map.mp humem with ⟨t, htmem, htu⟩
          have htne : t.uri ≠ s.uri := by
            have hh := (List.mem_filter.mp htmem).2
            simpa using hh
          have hune : s.uri ≠ u := by
            rw [← htu]
            exact fun h => htne h.symm
          have himp : ∀ a : GroundingSource, (a.uri == u) = true →
              (decide (a.uri ≠ s.uri)) = true := by
            intro a ha
            rw [beq_iff_eq] at ha
            rw [ha]
            simp only [decide_eq_true_eq]
            exact fun h => hune h.symm
          rw [List.find?_cons_of_neg _ (by simp [hune])]
          exact (find?_filter_of_imp _ _ rest himp).symm
        calc dedupByUri (s :: rest)
            = (firstOccur ((s :: rest).map (fun x => x.uri))).filterMap
                (fun u => (s :: rest).find? (fun t => t.uri == u)) := by
              unfold dedupByUri
              rw [setFromList_eq_firstOccur]
          _ = s :: (firstOccur
                ((rest.filter (fun t => t.uri ≠ s.uri)).map (fun x => x.uri))).filterMap
                (fun u => (s :: rest).find? (fun t => t.uri == u)) := by
              rw [e2]
              simp [List.filterMap_cons, e3]
          _ = s :: (firstOccur
                ((rest.filter (fun t => t.uri ≠ s.uri)).map (fun x => x.uri))).filterMap
                (fun u => (rest.filter (fun t => t.uri ≠ s.uri)).find?
                  (fun t => t.uri == u)) := by
              congr 1
              exact List.filterMap_congr e4
          _ = s :: dedupByUri (rest.filter (fun t => t.uri ≠ s.uri)) := by
              unfold dedupByUri
              rw [setFromList_eq_firstOccur]
          _ = s :: keepFirstByUri (rest.filter (fun t => t.uri ≠ s.uri)) := by
              rw [ih _ hlenf]
          _ = keepFirstByUri (s :: rest) := (keepFirstByUri_cons s rest).symm
  exact main l.length l le_rfl

theorem chunkSources_aux : ∀ (chunks : List Chunk) (acc : List GroundingSource),
    chunks.foldl chunkStep acc = acc ++ chunks.filterMap claimChunkSource := by
  intro chunks
  induction chunks with
  | nil =>
    intro acc
    simp
  | cons c rest ih =>
    intro acc
    rw [List.foldl_cons, List.filterMap_cons]
    cases hw : c.web with
    | none =>
      have hstep : chunkStep acc c = acc := by
        simp [chunkStep, hw]
      have hclaim : claimChunkSource c = none := by
        simp [claimChunkSource, hw]
      rw [hstep, hclaim]
      exact ih acc
    | some w =>
      by_cases hu : w.uri = ""
      · have hstep : chunkStep acc c = acc := by
          simp [chunkStep, hw, hu]
        have hclaim : claimChunkSource c = none := by
          simp [claimChunkSource, hw, hu]
        rw [hstep, hclaim]
        exact ih acc
      · by_cases ht : w.title = ""
        · have hstep : chunkStep acc c =
              acc ++ [{ title := w.uri, uri := w.uri }] := by
            simp [chunkStep, hw, hu, ht]
          have hclaim : claimChunkSource c =
              some { title := w.uri, uri := w.uri } := by
            simp [claimChunkSource, hw, hu, ht]
          rw [hstep, hclaim, ih, List.append_assoc]
          rfl
        · have hstep : chunkStep acc c =
              acc ++ [{ title := w.title, uri := w.uri }] := by
            simp [chunkStep, hw, hu, ht]
          have hclaim : claimChunkSource c =
              some { title := w.title, uri := w.uri } := by
            simp [claimChunkSource, hw, hu, ht]
          rw [hstep, hclaim, ih, List.append_assoc]
          rfl

theorem chunkSources_eq_filterMap (chunks : List Chunk) :
    chunkSources chunks = chunks.filterMap claimChunkSource := by
  unfold chunkSources
  rw [chunkSources_aux chunks [], List.nil_append]

/-- C7: the extracted source list keeps one `GroundingSource` per chunk
with a web citation and usable `uri` (others are discarded, and `title`
defaults to `uri` when missing), and the `Set`-based de-duplication of
the code keeps exactly the first occurrence of each `uri` in original
order. -/
theorem c7_grounding_sources (chunks : List Chunk) :
    chunkSources chunks = chunks.filterMap claimChunkSource ∧
    dedupByUri (chunkSources chunks) = keepFirstByUri (chunkSources chunks) ∧
    dedupByUri (chunkSources chunks) =
      keepFirstByUri (chunks.filterMap claimChunkSource) :=
  ⟨chunkSources_eq_filterMap chunks,
   dedupByUri_eq_keepFirstByUri (chunkSources chunks),
   by rw [← chunkSources_eq_filterMap chunks]
      exact dedupByUri_eq_keepFirstByUri (chunkSources chunks)⟩

end Sureodds
